import Mathlib

set_option maxHeartbeats 1000000

/-! Shallow embedding of the core of the age encryption library:
the scrypt and X25519 recipient/identity schemes and the
Encrypt/Decrypt header pipeline.

Bytes are modelled as `Nat` (values `< 256` where it matters) and byte
strings as `List Nat`.  External cryptographic primitives that are not
part of the sources (X25519 scalar multiplication, HKDF-SHA256, the
scrypt KDF, the fixed-nonce ChaCha20-Poly1305 wrapping, the header MAC)
are taken as explicit function parameters of the embedded operations, so
a theorem quantifying over them expresses that the operation uses them
only through the stated call sites. -/

/-- Errors of the age core: the distinguished non-fatal
`ErrIncorrectIdentity` signal versus fatal errors carrying a message.
Fatal messages are modelled as the constant prefix of the Go error
string (the `fmt.Errorf` verbs append underlying details). -/
inductive AgeErr where
  | incorrectIdentity
  | fatal (msg : String)
deriving DecidableEq, Repr

/-- Embeds `format.Recipient`: one header stanza `{Type, Args, Body}`.  The
body is the raw wrapped-key bytes (decoded by the external header
codec). -/
structure Stanza where
  type : String
  args : List String
  body : List Nat
deriving DecidableEq, Repr

/-- Embeds `format.Header`: the ordered stanzas plus the stored MAC bytes. -/
structure Header where
  recipients : List Stanza
  mac : List Nat
deriving DecidableEq, Repr

/-- ASCII bytes of a string (all label strings are 7-bit ASCII). -/
def strBytes (s : String) : List Nat := s.toList.map Char.toNat

/-- scrypt KDF salt label (`scryptLabel` in the source). -/
def scryptLabel : String := "age-encryption.org/v1/scrypt"

/-- X25519 HKDF info label (`x25519Label` in the source). -/
def x25519Label : String := "age-encryption.org/v1/X25519"

/-! ### Base64 codec (`format.EncodeToString` / `format.DecodeString`)

Modelled from the spec: the header codec package (not under the sources
given) encodes stanza arguments as standard base64 without padding
("base64 (no padding)"), i.e. Go's `base64.RawStdEncoding`. -/

/-- The standard base64 alphabet, as a map from a 6-bit value to its
character. -/
def encodeChar (v : Nat) : Char :=
  if v < 26 then Char.ofNat (65 + v)
  else if v < 52 then Char.ofNat (97 + (v - 26))
  else if v < 62 then Char.ofNat (48 + (v - 52))
  else if v = 62 then '+'
  else '/'

/-- Inverse of the standard base64 alphabet. -/
def decodeChar (c : Char) : Option Nat :=
  if 'A' ≤ c ∧ c ≤ 'Z' then some (c.toNat - 65)
  else if 'a' ≤ c ∧ c ≤ 'z' then some (c.toNat - 97 + 26)
  else if '0' ≤ c ∧ c ≤ '9' then some (c.toNat - 48 + 52)
  else if c = '+' then some 62
  else if c = '/' then some 63
  else none

/-- Unpadded base64 encoding of a byte list, three bytes at a time. -/
def encodeGroups : List Nat → List Char
  | [] => []
  | [b0] => [encodeChar (b0 / 4), encodeChar (b0 % 4 * 16)]
  | [b0, b1] =>
      [encodeChar (b0 / 4), encodeChar (b0 % 4 * 16 + b1 / 16),
       encodeChar (b1 % 16 * 4)]
  | b0 :: b1 :: b2 :: rest =>
      encodeChar (b0 / 4) :: encodeChar (b0 % 4 * 16 + b1 / 16) ::
      encodeChar (b1 % 16 * 4 + b2 / 64) :: encodeChar (b2 % 64) ::
      encodeGroups rest

/-- Unpadded base64 decoding, four characters at a time.  A remainder
of one character is invalid; as in Go's non-strict decoder, trailing
bits of a final partial group are ignored. -/
def decodeGroups : List Char → Option (List Nat)
  | [] => some []
  | [c0, c1] =>
      (decodeChar c0).bind fun v0 =>
      (decodeChar c1).bind fun v1 =>
      some [v0 * 4 + v1 / 16]
  | [c0, c1, c2] =>
      (decodeChar c0).bind fun v0 =>
      (decodeChar c1).bind fun v1 =>
      (decodeChar c2).bind fun v2 =>
      some [v0 * 4 + v1 / 16, v1 % 16 * 16 + v2 / 4]
  | c0 :: c1 :: c2 :: c3 :: rest =>
      (decodeChar c0).bind fun v0 =>
      (decodeChar c1).bind fun v1 =>
      (decodeChar c2).bind fun v2 =>
      (decodeChar c3).bind fun v3 =>
      (decodeGroups rest).bind fun tl =>
      some ((v0 * 4 + v1 / 16) :: (v1 % 16 * 16 + v2 / 4) ::
            (v2 % 4 * 64 + v3) :: tl)
  | [_] => none

/-- Embeds `format.EncodeToString`. -/
def encodeToString (l : List Nat) : String := String.mk (encodeGroups l)

/-- Embeds `format.DecodeString`. -/
def decodeString (s : String) : Option (List Nat) := decodeGroups s.toList

/-! ### Decimal integer parsing (`strconv.Atoi`) -/

/-- Value of a non-empty all-digit string, `none` otherwise. -/
def atoiDigits : List Char → Option Nat
  | [] => none
  | [c] => if '0' ≤ c ∧ c ≤ '9' then some (c.toNat - 48) else none
  | c :: rest =>
      if '0' ≤ c ∧ c ≤ '9' then
        (atoiDigits rest).map fun n => (c.toNat - 48) * 10 ^ rest.length + n
      else none

/-- Embeds `strconv.Atoi` on a 64-bit platform: an optional sign followed by
at least one decimal digit, rejecting values outside the `int64`
range. -/
def atoi (s : String) : Option Int :=
  match s.toList with
  | '+' :: ds =>
      (atoiDigits ds).bind fun n =>
        if (n : Int) ≤ 2 ^ 63 - 1 then some (n : Int) else none
  | '-' :: ds =>
      (atoiDigits ds).bind fun n =>
        if (n : Int) ≤ 2 ^ 63 then some (-(n : Int)) else none
  | ds =>
      (atoiDigits ds).bind fun n =>
        if (n : Int) ≤ 2 ^ 63 - 1 then some (n : Int) else none


/-! ### Abstract primitive signatures

The cryptographic collaborators live outside the given sources
(`golang.org/x/crypto` and the repository's `primitives.go`); the
embedded operations take them as parameters and a theorem may quantify
over them. -/

/-- Signature of `scrypt.Key(password, salt, N, 8, 1, 32)`: password, salt and the
cost parameter `N`; `none` models the error return. -/
abbrev ScryptKeyF := List Nat → List Nat → Nat → Option (List Nat)

/-- Signature of `aeadEncrypt(key, plaintext)` (fixed-nonce ChaCha20-Poly1305).
Modelled from the spec: total, returns `plaintext`-length + 16 bytes. -/
abbrev AeadEncF := List Nat → List Nat → List Nat

/-- Signature of `aeadDecrypt(key, ciphertext)`; `none` models a tag failure. -/
abbrev AeadDecF := List Nat → List Nat → Option (List Nat)

/-- Signature of `curve25519.X25519(scalar, point)`; `none` models the all-zero
(low-order) error return. -/
abbrev X25519F := List Nat → List Nat → Option (List Nat)

/-- 32 bytes read from `hkdf.New(sha256.New, ikm, salt, info)`. -/
abbrev HkdfF := List Nat → List Nat → List Nat → List Nat

/-- Signature of `headerMAC(fileKey, hdr)`.  Modelled from the spec: the repository's
`headerMAC` (HMAC-SHA256 under an HKDF-derived key over the marshalled
header without its MAC section) is not among the given sources, so it is
an unspecified deterministic function of the file key and the stanzas. -/
abbrev HeaderMacF := List Nat → List Stanza → List Nat

/-- Embeds `curve25519.Basepoint`. -/
def basepoint : List Nat := 9 :: List.replicate 31 0

/-! ### scrypt scheme -/

/-- Embeds `ScryptRecipient`: password plus work factor (Go `int`). -/
structure ScryptRecipient where
  password : List Nat
  workFactor : Int
deriving DecidableEq, Repr

def ScryptRecipient.Type (_ : ScryptRecipient) : String := "scrypt"

/-- Embeds `SetWorkFactor`; `none` models the Go panic
`"age: SetWorkFactor called with illegal value"`. -/
def ScryptRecipient.SetWorkFactor (r : ScryptRecipient) (logN : Int) :
    Option ScryptRecipient :=
  if logN > 30 ∨ logN < 1 then none
  else some { r with workFactor := logN }

/-- Embeds `ScryptRecipient.Wrap`.  The fresh 16-byte salt read from the RNG is
a parameter; `scryptKey` and `aeadEncrypt` are the external
primitives. -/
def ScryptRecipient.Wrap (scryptKey : ScryptKeyF) (aeadEncrypt : AeadEncF)
    (salt : List Nat) (r : ScryptRecipient) (fileKey : List Nat) :
    Except AgeErr Stanza :=
  let logN := r.workFactor
  match scryptKey r.password (strBytes scryptLabel ++ salt) (2 ^ logN.toNat) with
  | none => .error (.fatal "failed to generate scrypt hash")
  | some k =>
      .ok { type := "scrypt",
            args := [encodeToString salt, toString logN],
            body := aeadEncrypt k fileKey }

/-- Embeds `ScryptIdentity`: password plus maximum accepted work factor. -/
structure ScryptIdentity where
  password : List Nat
  maxWorkFactor : Int
deriving DecidableEq, Repr

def ScryptIdentity.Type (_ : ScryptIdentity) : String := "scrypt"

/-- Embeds `SetMaxWorkFactor`; `none` models the Go panic
`"age: SetMaxWorkFactor called with illegal value"`. -/
def ScryptIdentity.SetMaxWorkFactor (i : ScryptIdentity) (logN : Int) :
    Option ScryptIdentity :=
  if logN > 30 ∨ logN < 1 then none
  else some { i with maxWorkFactor := logN }

/-- Embeds `ScryptIdentity.Unwrap`. -/
def ScryptIdentity.Unwrap (scryptKey : ScryptKeyF) (aeadDecrypt : AeadDecF)
    (i : ScryptIdentity) (block : Stanza) : Except AgeErr (List Nat) :=
  if block.type ≠ "scrypt" then .error .incorrectIdentity
  else match block.args with
    | [a0, a1] =>
        match decodeString a0 with
        | none => .error (.fatal "failed to parse scrypt salt")
        | some salt =>
            if salt.length ≠ 16 then .error (.fatal "invalid scrypt recipient block")
            else match atoi a1 with
              | none => .error (.fatal "failed to parse scrypt work factor")
              | some logN =>
                  if logN > i.maxWorkFactor then
                    .error (.fatal ("scrypt work factor too large: " ++ toString logN))
                  else if logN ≤ 0 then
                    .error (.fatal ("invalid scrypt work factor: " ++ toString logN))
                  else
                    match scryptKey i.password (strBytes scryptLabel ++ salt)
                        (2 ^ logN.toNat) with
                    | none => .error (.fatal "failed to generate scrypt hash")
                    | some k =>
                        match aeadDecrypt k block.body with
                        | none => .error .incorrectIdentity
                        | some fileKey => .ok fileKey
    | _ => .error (.fatal "invalid scrypt recipient block")

/-! ### X25519 scheme -/

/-- Embeds `X25519Recipient`: the peer's 32-byte public point. -/
structure X25519Recipient where
  theirPublicKey : List Nat
deriving DecidableEq, Repr

def X25519Recipient.Type (_ : X25519Recipient) : String := "X25519"

/-- Embeds `X25519Recipient.Wrap`.  The fresh 32-byte ephemeral scalar read
from the RNG is a parameter. -/
def X25519Recipient.Wrap (x25519 : X25519F) (hkdf : HkdfF)
    (aeadEncrypt : AeadEncF) (ephemeral : List Nat) (r : X25519Recipient)
    (fileKey : List Nat) : Except AgeErr Stanza :=
  match x25519 ephemeral basepoint with
  | none => .error (.fatal "curve25519")
  | some ourPublicKey =>
      match x25519 ephemeral r.theirPublicKey with
      | none => .error (.fatal "curve25519")
      | some sharedSecret =>
          let salt := ourPublicKey ++ r.theirPublicKey
          let wrappingKey := hkdf sharedSecret salt (strBytes x25519Label)
          .ok { type := "X25519",
                args := [encodeToString ourPublicKey],
                body := aeadEncrypt wrappingKey fileKey }

/-- Embeds `X25519Identity`: secret scalar and cached derived public point. -/
structure X25519Identity where
  secretKey : List Nat
  ourPublicKey : List Nat
deriving DecidableEq, Repr

def X25519Identity.Type (_ : X25519Identity) : String := "X25519"

/-- Embeds `X25519Identity.Unwrap`. -/
def X25519Identity.Unwrap (x25519 : X25519F) (hkdf : HkdfF)
    (aeadDecrypt : AeadDecF) (i : X25519Identity) (block : Stanza) :
    Except AgeErr (List Nat) :=
  if block.type ≠ "X25519" then .error .incorrectIdentity
  else match block.args with
    | [a0] =>
        match decodeString a0 with
        | none => .error (.fatal "failed to parse X25519 recipient")
        | some publicKey =>
            if publicKey.length ≠ 32 then
              .error (.fatal "invalid X25519 recipient block")
            else match x25519 i.secretKey publicKey with
              | none => .error (.fatal "invalid X25519 recipient")
              | some sharedSecret =>
                  let salt := publicKey ++ i.ourPublicKey
                  let wrappingKey := hkdf sharedSecret salt (strBytes x25519Label)
                  match aeadDecrypt wrappingKey block.body with
                  | none => .error .incorrectIdentity
                  | some fileKey => .ok fileKey
    | _ => .error (.fatal "invalid X25519 recipient block")

/-- Embeds `X25519Identity.Recipient`. -/
def X25519Identity.Recipient (i : X25519Identity) : X25519Recipient :=
  ⟨i.ourPublicKey⟩

/-! ### Recipient/Identity capability interfaces and the file pipeline -/

/-- The `Identity` interface: `Type()`, `Unwrap`, and the optional
`IdentityMatcher.Match` capability (`none` when the identity does not
implement `IdentityMatcher`).  `Match` returns `.ok ()` for Go's `nil`
error. -/
structure Identity where
  type : String
  unwrap : Stanza → Except AgeErr (List Nat)
  matcher : Option (Stanza → Except AgeErr Unit)

/-- The `Recipient` interface: `Type()` and `Wrap`; a wrap error carries
its message. -/
structure Recipient where
  type : String
  wrap : List Nat → Except String Stanza

/-- Outcome of offering one stanza to one identity inside Decrypt's
inner loop: `skip` is Go's `continue`, `found` is the `break
RecipientsLoop`, `fatal` the early `return`. -/
inductive StepResult where
  | skip
  | found (fileKey : List Nat)
  | fatal (e : AgeErr)
deriving DecidableEq, Repr

/-- The unconditional `i.Unwrap(r)` call at the bottom of Decrypt's
identity loop. -/
def unwrapStep (i : Identity) (r : Stanza) : StepResult :=
  match i.unwrap r with
  | .ok fileKey => .found fileKey
  | .error .incorrectIdentity => .skip
  | .error e => .fatal e

/-- One iteration of Decrypt's identity loop: the `Type` filter, the
optional `Match` probe, then `Unwrap`. -/
def tryOne (i : Identity) (r : Stanza) : StepResult :=
  if i.type ≠ r.type then .skip
  else match i.matcher with
    | some m =>
        match m r with
        | .error .incorrectIdentity => .skip
        | .error e => .fatal e
        | .ok _ => unwrapStep i r
    | none => unwrapStep i r

/-- Decrypt's inner loop over the caller-supplied identities for one
stanza. -/
def tryIdentities (r : Stanza) : List Identity → StepResult
  | [] => .skip
  | i :: rest =>
      match tryOne i r with
      | .skip => tryIdentities r rest
      | s => s

/-- Decrypt's `RecipientsLoop` over the stanzas; `n` is the total
stanza count `len(hdr.Recipients)` used by the scrypt-exclusivity
check.  `.ok none` means the loop finished with `fileKey == nil`. -/
def scanStanzas (n : Nat) (ids : List Identity) :
    List Stanza → Except AgeErr (Option (List Nat))
  | [] => .ok none
  | r :: rest =>
      if r.type = "scrypt" ∧ n ≠ 1 then
        .error (.fatal "an scrypt recipient must be the only one")
      else match tryIdentities r ids with
        | .found fileKey => .ok (some fileKey)
        | .fatal e => .error e
        | .skip => scanStanzas n ids rest

/-- The value returned by a successful `Decrypt`: the inputs of the
`stream.NewReader(streamKey(fileKey, nonce), rest)` handle. -/
structure DecryptReader where
  fileKey : List Nat
  nonce : List Nat
  rest : List Nat
deriving DecidableEq, Repr

/-- Embeds `Decrypt`, from the successfully parsed header on: the identity
count check, the stanza-count cap, the recipients loop, the header MAC
comparison, and the payload-nonce read.  `headerMAC` is the external MAC
primitive; `payload` is the stream remaining after the header. -/
def Decrypt (headerMAC : HeaderMacF) (hdr : Header) (payload : List Nat)
    (identities : List Identity) : Except AgeErr DecryptReader :=
  if identities.length = 0 then .error (.fatal "no identities specified")
  else if hdr.recipients.length > 20 then .error (.fatal "too many recipients")
  else match scanStanzas hdr.recipients.length identities hdr.recipients with
    | .error e => .error e
    | .ok none => .error (.fatal "no identity matched a recipient")
    | .ok (some fileKey) =>
        if headerMAC fileKey hdr.recipients ≠ hdr.mac then
          .error (.fatal "bad header MAC")
        else if payload.length < 16 then
          .error (.fatal "failed to read nonce")
        else
          .ok { fileKey := fileKey, nonce := payload.take 16,
                rest := payload.drop 16 }

/-- Encrypt's recipient loop: the scrypt-exclusivity check and the
per-recipient `Wrap` call; `total` is `len(recipients)` and `idx` the
running index reported in wrap failures. -/
def wrapRecipients (fileKey : List Nat) (total : Nat) :
    Nat → List Recipient → Except AgeErr (List Stanza)
  | _, [] => .ok []
  | idx, r :: rest =>
      if r.type = "scrypt" ∧ total ≠ 1 then
        .error (.fatal "an scrypt recipient must be the only one")
      else match r.wrap fileKey with
        | .error e =>
            .error (.fatal ("failed to wrap key for recipient #" ++
              toString idx ++ ": " ++ e))
        | .ok block =>
            match wrapRecipients fileKey total (idx + 1) rest with
            | .error e => .error e
            | .ok blocks => .ok (block :: blocks)

/-- Embeds `Encrypt`, up to the point where the stream writer is handed back:
the empty-recipients check and the header assembly.  The random file key
and payload nonce are parameters; a successful result is the marshalled
header (stanzas plus computed MAC) and the nonce that are written to the
destination. -/
def Encrypt (headerMAC : HeaderMacF) (fileKey nonce : List Nat)
    (recipients : List Recipient) : Except AgeErr (Header × List Nat) :=
  if recipients.length = 0 then .error (.fatal "no recipients specified")
  else match wrapRecipients fileKey recipients.length 0 recipients with
    | .error e => .error e
    | .ok blocks =>
        .ok ({ recipients := blocks, mac := headerMAC fileKey blocks }, nonce)

/-! ### Spec-side description of the decrypt scan (for the refinement
claim about Decrypt's matching algorithm)

These definitions follow the spec's words, not the source: "for each
stanza in header order, try identities in caller-supplied order whose
type() equals the stanza type; if the identity implements the match
probe, call match(stanza) first; an incorrect-identity outcome skips to
the next identity, any other error is fatal; the first successful unwrap
wins, and further stanzas are not tried". -/

/-- The three-way outcome of one (stanza, identity) candidate pair,
written from the spec's words: `none` = skip to the next candidate,
`some (.ok fk)` = successful unwrap, `some (.error e)` = fatal abort. -/
def specOutcome (i : Identity) (r : Stanza) :
    Option (Except AgeErr (List Nat)) :=
  if i.type = r.type then
    match i.matcher with
    | some m =>
        match m r with
        | .ok _ =>
            (match i.unwrap r with
             | .ok fk => some (.ok fk)
             | .error .incorrectIdentity => none
             | .error e => some (.error e))
        | .error .incorrectIdentity => none
        | .error e => some (.error e)
    | none =>
        match i.unwrap r with
        | .ok fk => some (.ok fk)
        | .error .incorrectIdentity => none
        | .error e => some (.error e)
  else none

/-- All non-skip candidate outcomes in stanza-major, identity-minor
order. -/
def specCandidates (ids : List Identity) : List Stanza →
    List (Except AgeErr (List Nat))
  | [] => []
  | r :: rest => (ids.filterMap fun i => specOutcome i r) ++ specCandidates ids rest

/-- The spec's scan: the first non-skip outcome decides; no outcome at
all leaves the file key unrecovered. -/
def scanSpec (ids : List Identity) (stanzas : List Stanza) :
    Except AgeErr (Option (List Nat)) :=
  match (specCandidates ids stanzas).head? with
  | none => .ok none
  | some (.ok fk) => .ok (some fk)
  | some (.error e) => .error e

/-- View of a `StepResult` as a candidate outcome. -/
def stepToOpt : StepResult → Option (Except AgeErr (List Nat))
  | .skip => none
  | .found fk => some (.ok fk)
  | .fatal e => some (.error e)

theorem decodeChar_encodeChar : ∀ v, v < 64 → decodeChar (encodeChar v) = some v := by
  decide

theorem decodeGroups_encodeGroups (l : List Nat) (h : ∀ b ∈ l, b < 256) :
    decodeGroups (encodeGroups l) = some l := by
  induction l using encodeGroups.induct with
  | case1 => rfl
  | case2 b0 =>
      have h0 : b0 < 256 := h b0 (by simp)
      simp only [encodeGroups, decodeGroups]
      rw [decodeChar_encodeChar _ (by omega), decodeChar_encodeChar _ (by omega)]
      simp only [Option.some_bind, Option.some.injEq, List.cons.injEq, and_true]
      omega
  | case3 b0 b1 =>
      have h0 : b0 < 256 := h b0 (by simp)
      have h1 : b1 < 256 := h b1 (by simp)
      simp only [encodeGroups, decodeGroups]
      rw [decodeChar_encodeChar _ (by omega), decodeChar_encodeChar _ (by omega),
        decodeChar_encodeChar _ (by omega)]
      simp only [Option.some_bind, Option.some.injEq, List.cons.injEq, and_true]
      constructor
      · omega
      · omega
  | case4 b0 b1 b2 rest ih =>
      have h0 : b0 < 256 := h b0 (by simp)
      have h1 : b1 < 256 := h b1 (by simp)
      have h2 : b2 < 256 := h b2 (by simp)
      have hrest : ∀ b ∈ rest, b < 256 := fun b hb => h b (by simp [hb])
      simp only [encodeGroups, decodeGroups]
      rw [decodeChar_encodeChar _ (by omega), decodeChar_encodeChar _ (by omega),
        decodeChar_encodeChar _ (by omega), decodeChar_encodeChar _ (by omega),
        ih hrest]
      simp only [Option.some_bind, Option.some.injEq, List.cons.injEq]
      refine ⟨by omega, by omega, by omega, trivial⟩

theorem decodeString_encodeToString (l : List Nat) (h : ∀ b ∈ l, b < 256) :
    decodeString (encodeToString l) = some l := by
  unfold decodeString encodeToString
  rw [show (String.mk (encodeGroups l)).toList = encodeGroups l from rfl]
  exact decodeGroups_encodeGroups l h

theorem specOutcome_eq_tryOne (i : Identity) (r : Stanza) :
    specOutcome i r = stepToOpt (tryOne i r) := by
  by_cases h : i.type = r.type
  · cases hmat : i.matcher with
    | none =>
        cases hu : i.unwrap r with
        | ok fk => simp [specOutcome, tryOne, unwrapStep, stepToOpt, h, hmat, hu]
        | error e =>
            cases e <;>
              simp [specOutcome, tryOne, unwrapStep, stepToOpt, h, hmat, hu]
    | some m =>
        cases hm : m r with
        | ok u =>
            cases hu : i.unwrap r with
            | ok fk =>
                simp [specOutcome, tryOne, unwrapStep, stepToOpt, h, hmat, hm, hu]
            | error e =>
                cases e <;>
                  simp [specOutcome, tryOne, unwrapStep, stepToOpt, h, hmat, hm, hu]
        | error e =>
            cases e <;>
              simp [specOutcome, tryOne, unwrapStep, stepToOpt, h, hmat, hm]
  · simp [specOutcome, tryOne, stepToOpt, h]

theorem head_specOutcomes_eq_tryIdentities (r : Stanza) (ids : List Identity) :
    (ids.filterMap fun i => specOutcome i r).head? =
      stepToOpt (tryIdentities r ids) := by
  induction ids with
  | nil => rfl
  | cons i rest ih =>
      rw [List.filterMap_cons, specOutcome_eq_tryOne]
      cases h : tryOne i r with
      | skip =>
          simpa only [stepToOpt, tryIdentities, h] using ih
      | found fk => simp only [stepToOpt, tryIdentities, h, List.head?_cons]
      | fatal e => simp only [stepToOpt, tryIdentities, h, List.head?_cons]

/-- C2: Decrypt scans stanzas in header order and, for each stanza,
tries identities in caller-supplied order, skipping identities whose
type differs from the stanza type; an identity implementing the match
probe has Match consulted before Unwrap, an incorrect-identity outcome
skips to the next identity, any other Match or Unwrap error aborts
fatally, and the first successful Unwrap fixes the file key with no
further stanza tried: on every header on which the separate
scrypt-exclusivity abort cannot fire, the recipients loop of the source
(`scanStanzas`) computes exactly the spec's stanza-major,
identity-minor, first-success scan (`scanSpec`). -/
theorem scanStanzas_follows_spec (n : Nat) (ids : List Identity)
    (stanzas : List Stanza) (h : ∀ r ∈ stanzas, r.type = "scrypt" → n = 1) :
    scanStanzas n ids stanzas = scanSpec ids stanzas := by
  induction stanzas with
  | nil => rfl
  | cons r rest ih =>
      have hr : ¬(r.type = "scrypt" ∧ n ≠ 1) := by
        rintro ⟨h1, h2⟩
        exact h2 (h r (by simp) h1)
      unfold scanStanzas scanSpec specCandidates
      rw [if_neg hr]
      cases ht : tryIdentities r ids with
      | skip =>
          have hnil : (ids.filterMap fun i => specOutcome i r) = [] := by
            have hh := head_specOutcomes_eq_tryIdentities r ids
            rw [ht] at hh
            exact List.head?_eq_none_iff.mp hh
          rw [hnil, List.nil_append]
          exact ih fun r' hr' => h r' (by simp [hr'])
      | found fk =>
          have hh := head_specOutcomes_eq_tryIdentities r ids
          rw [ht] at hh
          cases hc : (ids.filterMap fun i => specOutcome i r) with
          | nil => rw [hc] at hh; cases hh
          | cons x xs =>
              rw [hc] at hh
              have hx : x = .ok fk := by simpa [stepToOpt] using hh
              subst hx
              rfl
      | fatal e =>
          have hh := head_specOutcomes_eq_tryIdentities r ids
          rw [ht] at hh
          cases hc : (ids.filterMap fun i => specOutcome i r) with
          | nil => rw [hc] at hh; cases hh
          | cons x xs =>
              rw [hc] at hh
              have hx : x = .error e := by simpa [stepToOpt] using hh
              subst hx
              rfl

theorem scanStanzas_follows_spec_witness :
    scanStanzas 1 [{ type := "X25519",
                     unwrap := fun _ => .error .incorrectIdentity,
                     matcher := none }]
        [{ type := "X25519", args := [], body := [] }] =
      scanSpec [{ type := "X25519",
                  unwrap := fun _ => .error .incorrectIdentity,
                  matcher := none }]
        [{ type := "X25519", args := [], body := [] }] :=
  scanStanzas_follows_spec 1 _ _ (fun _ _ _ => rfl)

/-- Decrypt's recipients loop aborts with the scrypt-exclusivity error
as soon as it reaches a scrypt-type stanza while `n ≠ 1`, provided every
stanza before it was merely skipped. -/
theorem scanStanzas_scrypt_reached (n : Nat) (ids : List Identity)
    (pre : List Stanza) (scr : Stanza) (rest : List Stanza)
    (hscr : scr.type = "scrypt") (hn : n ≠ 1)
    (hpre : ∀ r ∈ pre, tryIdentities r ids = .skip) :
    scanStanzas n ids (pre ++ scr :: rest) =
      .error (.fatal "an scrypt recipient must be the only one") := by
  induction pre with
  | nil =>
      unfold scanStanzas
      rw [List.nil_append]
      simp only []
      rw [if_pos ⟨hscr, hn⟩]
  | cons p ps ih =>
      unfold scanStanzas
      rw [List.cons_append]
      simp only []
      by_cases hp : p.type = "scrypt" ∧ n ≠ 1
      · rw [if_pos hp]
      · rw [if_neg hp, hpre p (by simp)]
        exact ih fun r hr => hpre r (by simp [hr])

/-- C1 (amended): for a parsed header of `≥ 2` stanzas one of which has
type `"scrypt"`, and a non-empty identity list, Decrypt fails with the
fatal policy error `"an scrypt recipient must be the only one"`
*provided the scan actually reaches a scrypt stanza*: every stanza
before the first scrypt one is skipped by all identities.  (As stated
the claim is false: the check sits inside the recipients loop, so a
successful unwrap of an earlier stanza breaks out of the loop before any
scrypt stanza is examined and Decrypt proceeds to MAC verification.) -/
theorem decrypt_scrypt_exclusivity_when_reached (headerMAC : HeaderMacF)
    (hdr : Header) (payload : List Nat) (ids : List Identity)
    (pre : List Stanza) (scr : Stanza) (rest : List Stanza)
    (hsplit : hdr.recipients = pre ++ scr :: rest)
    (hscr : scr.type = "scrypt")
    (hlen : hdr.recipients.length ≠ 1)
    (hcap : hdr.recipients.length ≤ 20)
    (hids : ids ≠ [])
    (hpre : ∀ r ∈ pre, tryIdentities r ids = .skip) :
    Decrypt headerMAC hdr payload ids =
      .error (.fatal "an scrypt recipient must be the only one") := by
  unfold Decrypt
  rw [if_neg (by simpa [List.length_eq_zero] using hids),
    if_neg (by omega)]
  rw [hsplit, scanStanzas_scrypt_reached _ _ pre scr rest hscr
    (by rw [hsplit] at hlen; exact hlen) hpre]

theorem decrypt_scrypt_exclusivity_when_reached_witness :
    Decrypt (fun _ _ => [])
      { recipients := [{ type := "scrypt", args := [], body := [] },
                       { type := "X25519", args := [], body := [] }],
        mac := [] }
      []
      [{ type := "X25519",
         unwrap := fun _ => .error .incorrectIdentity,
         matcher := none }] =
      .error (.fatal "an scrypt recipient must be the only one") :=
  decrypt_scrypt_exclusivity_when_reached (fun _ _ => []) _ [] _
    [] { type := "scrypt", args := [], body := [] }
    [{ type := "X25519", args := [], body := [] }]
    rfl rfl (by decide) (by decide) (List.cons_ne_nil _ _)
    (fun r hr => by cases hr)

/-- C1 counterexample: a handcrafted two-stanza header whose second
stanza has type `"scrypt"`, decrypted with a single identity that
successfully unwraps the first stanza.  Decrypt succeeds — the
scrypt-exclusivity error is never raised and MAC verification is
reached and passed — refuting the claim that such a header fails for
every stanza order and identity list. -/
theorem decrypt_scrypt_mixed_header_can_succeed :
    Decrypt (fun _ _ => [])
      { recipients := [{ type := "X25519", args := [], body := [] },
                       { type := "scrypt", args := [], body := [] }],
        mac := [] }
      (List.replicate 16 0 ++ [1, 2, 3])
      [{ type := "X25519",
         unwrap := fun _ => .ok (List.replicate 16 7),
         matcher := none }] =
      .ok { fileKey := List.replicate 16 7,
            nonce := List.replicate 16 0,
            rest := [1, 2, 3] } := by
  rfl

/-- C8: once the header is parsed, a stanza count above 20 makes
Decrypt fail up-front for every identity list (universally quantified
identities and MAC function: no Match, Unwrap, MAC or scrypt
computation can be invoked): with `"too many recipients"` for a
non-empty identity list, and with the even earlier
`"no identities specified"` check for an empty one. -/
theorem decrypt_stanza_cap (headerMAC : HeaderMacF) (hdr : Header)
    (payload : List Nat) (ids : List Identity)
    (hcap : hdr.recipients.length > 20) :
    (ids ≠ [] →
       Decrypt headerMAC hdr payload ids =
         .error (.fatal "too many recipients")) ∧
    (ids = [] →
       Decrypt headerMAC hdr payload ids =
         .error (.fatal "no identities specified")) := by
  constructor
  · intro hids
    unfold Decrypt
    rw [if_neg (by simpa [List.length_eq_zero] using hids), if_pos hcap]
  · intro hids
    subst hids
    rfl

theorem decrypt_stanza_cap_witness :
    Decrypt (fun _ _ => [])
      { recipients := List.replicate 21 { type := "X25519", args := [], body := [] },
        mac := [] }
      []
      [{ type := "X25519",
         unwrap := fun _ => .ok [],
         matcher := none }] =
      .error (.fatal "too many recipients") :=
  (decrypt_stanza_cap (fun _ _ => []) _ [] _ (by decide)).1
    (List.cons_ne_nil _ _)

/-- C9: a successfully parsed header with zero stanzas is not reported
as malformed by Decrypt: the loop body never runs, the file key stays
`nil`, and the error is `"no identity matched a recipient"` — the very
error produced whenever the scan ends without any identity unwrapping
any stanza. -/
theorem decrypt_empty_header_no_match (headerMAC : HeaderMacF)
    (mac payload : List Nat) (ids : List Identity) (hids : ids ≠ []) :
    Decrypt headerMAC { recipients := [], mac := mac } payload ids =
      .error (.fatal "no identity matched a recipient") ∧
    (∀ hdr : Header, hdr.recipients.length ≤ 20 →
      scanStanzas hdr.recipients.length ids hdr.recipients = .ok none →
      Decrypt headerMAC hdr payload ids =
        .error (.fatal "no identity matched a recipient")) := by
  constructor
  · unfold Decrypt
    rw [if_neg (by simpa [List.length_eq_zero] using hids)]
    rfl
  · intro hdr hcap hscan
    unfold Decrypt
    rw [if_neg (by simpa [List.length_eq_zero] using hids),
      if_neg (by omega), hscan]

theorem decrypt_empty_header_no_match_witness :
    Decrypt (fun _ _ => []) { recipients := [], mac := [] } []
      [{ type := "X25519",
         unwrap := fun _ => .ok [],
         matcher := none }] =
      .error (.fatal "no identity matched a recipient") :=
  (decrypt_empty_header_no_match (fun _ _ => []) [] []
    [{ type := "X25519", unwrap := fun _ => .ok [], matcher := none }]
    (List.cons_ne_nil _ _)).1

/-- C6: after a file key has been recovered by the recipients loop, the
header MAC is recomputed under it and compared to the stored MAC; a
mismatch is the fatal `"bad header MAC"` error whatever the remaining
stream holds (so the payload nonce is not read), and only after the
comparison succeeds is the 16-byte nonce read — failing with a read
error on a short stream, succeeding otherwise. -/
theorem decrypt_mac_before_nonce (headerMAC : HeaderMacF) (hdr : Header)
    (ids : List Identity) (fileKey : List Nat)
    (hids : ids ≠ []) (hcap : hdr.recipients.length ≤ 20)
    (hscan : scanStanzas hdr.recipients.length ids hdr.recipients =
      .ok (some fileKey)) :
    (headerMAC fileKey hdr.recipients ≠ hdr.mac →
       ∀ payload, Decrypt headerMAC hdr payload ids =
         .error (.fatal "bad header MAC")) ∧
    (headerMAC fileKey hdr.recipients = hdr.mac →
       ∀ payload, payload.length < 16 →
         Decrypt headerMAC hdr payload ids =
           .error (.fatal "failed to read nonce")) ∧
    (headerMAC fileKey hdr.recipients = hdr.mac →
       ∀ payload, 16 ≤ payload.length →
         Decrypt headerMAC hdr payload ids =
           .ok { fileKey := fileKey, nonce := payload.take 16,
                 rest := payload.drop 16 }) := by
  refine ⟨fun hmac payload => ?_, fun hmac payload hshort => ?_,
    fun hmac payload hlong => ?_⟩ <;>
    (unfold Decrypt
     rw [if_neg (by simpa [List.length_eq_zero] using hids),
       if_neg (by omega), hscan]
     simp only [])
  · rw [if_pos hmac]
  · rw [if_neg (not_not_intro hmac), if_pos hshort]
  · rw [if_neg (not_not_intro hmac), if_neg (by omega)]

theorem decrypt_mac_before_nonce_witness :
    Decrypt (fun _ _ => [1])
      { recipients := [{ type := "X25519", args := [], body := [] }],
        mac := [] }
      []
      [{ type := "X25519",
         unwrap := fun _ => .ok [9],
         matcher := none }] =
      .error (.fatal "bad header MAC") :=
  (decrypt_mac_before_nonce (fun _ _ => [1])
    { recipients := [{ type := "X25519", args := [], body := [] }], mac := [] }
    [{ type := "X25519", unwrap := fun _ => .ok [9], matcher := none }]
    [9] (List.cons_ne_nil _ _) (by decide) rfl).1 (by decide) []

/-- Encrypt's recipient loop fails on any list that contains a
scrypt-type recipient when the total recipient count is not 1. -/
theorem wrapRecipients_scrypt_fails (fileKey : List Nat) (total : Nat)
    (htotal : total ≠ 1) :
    ∀ (idx : Nat) (rs : List Recipient), (∃ r ∈ rs, r.type = "scrypt") →
      ∃ e, wrapRecipients fileKey total idx rs = .error e := by
  intro idx rs
  induction rs generalizing idx with
  | nil => rintro ⟨r, hr, -⟩; cases hr
  | cons r rest ih =>
      rintro ⟨r', hr', hty⟩
      unfold wrapRecipients
      by_cases hr : r.type = "scrypt" ∧ total ≠ 1
      · rw [if_pos hr]; exact ⟨_, rfl⟩
      · rw [if_neg hr]
        have hrest : ∃ x ∈ rest, x.type = "scrypt" := by
          rcases List.mem_cons.mp hr' with h | h
          · exact absurd ⟨h ▸ hty, htotal⟩ hr
          · exact ⟨r', h, hty⟩
        cases hw : r.wrap fileKey with
        | error e => exact ⟨_, rfl⟩
        | ok st =>
            obtain ⟨e, he⟩ := ih (idx + 1) hrest
            rw [he]
            exact ⟨e, rfl⟩

/-- A wrap failure at position `pre.length` of the recipient list — all
earlier recipients wrapping fine and no scrypt violation up to it — is
reported with that recipient's index. -/
theorem wrapRecipients_error_index (fileKey : List Nat) (total : Nat)
    (msg : String) :
    ∀ (idx : Nat) (pre : List Recipient) (r : Recipient)
      (post : List Recipient),
      (∀ p ∈ pre, ¬(p.type = "scrypt" ∧ total ≠ 1) ∧
        ∃ st, p.wrap fileKey = .ok st) →
      ¬(r.type = "scrypt" ∧ total ≠ 1) →
      r.wrap fileKey = .error msg →
      wrapRecipients fileKey total idx (pre ++ r :: post) =
        .error (.fatal ("failed to wrap key for recipient #" ++
          toString (idx + pre.length) ++ ": " ++ msg)) := by
  intro idx pre
  induction pre generalizing idx with
  | nil =>
      intro r post hpre hr hw
      unfold wrapRecipients
      rw [List.nil_append]
      simp only []
      rw [if_neg hr, hw]
      simp
  | cons p ps ih =>
      intro r post hpre hr hw
      obtain ⟨hp, st, hst⟩ := hpre p (by simp)
      unfold wrapRecipients
      rw [List.cons_append]
      simp only []
      rw [if_neg hp, hst]
      rw [ih (idx + 1) r post (fun q hq => hpre q (by simp [hq])) hr hw]
      have : idx + 1 + ps.length = idx + (p :: ps).length := by
        simp [List.length_cons]; omega
      rw [this]

/-- C7: Encrypt with an empty recipient list fails with
`"no recipients specified"`; a list holding a scrypt-type recipient
together with at least one other recipient always fails fatally (so no
header, nonce or payload is emitted); and a first failing Wrap at
position `pre.length` makes Encrypt fail with the error naming exactly
that index. -/
theorem encrypt_policy (headerMAC : HeaderMacF) (fileKey nonce : List Nat) :
    (Encrypt headerMAC fileKey nonce [] =
       .error (.fatal "no recipients specified")) ∧
    (∀ recipients : List Recipient, 2 ≤ recipients.length →
       (∃ r ∈ recipients, r.type = "scrypt") →
       ∃ e, Encrypt headerMAC fileKey nonce recipients = .error e) ∧
    (∀ (pre : List Recipient) (r : Recipient) (post : List Recipient)
       (msg : String),
       (∀ p ∈ pre, ¬(p.type = "scrypt" ∧ (pre ++ r :: post).length ≠ 1) ∧
         ∃ st, p.wrap fileKey = .ok st) →
       ¬(r.type = "scrypt" ∧ (pre ++ r :: post).length ≠ 1) →
       r.wrap fileKey = .error msg →
       Encrypt headerMAC fileKey nonce (pre ++ r :: post) =
         .error (.fatal ("failed to wrap key for recipient #" ++
           toString pre.length ++ ": " ++ msg))) := by
  refine ⟨rfl, fun recipients hlen hscrypt => ?_, fun pre r post msg hpre hr hw => ?_⟩
  · obtain ⟨e, he⟩ := wrapRecipients_scrypt_fails fileKey recipients.length
      (by omega) 0 recipients hscrypt
    refine ⟨e, ?_⟩
    unfold Encrypt
    rw [if_neg (by omega), he]
  · unfold Encrypt
    rw [if_neg (by simp)]
    rw [wrapRecipients_error_index fileKey (pre ++ r :: post).length msg 0
      pre r post hpre hr hw]
    rw [Nat.zero_add]

theorem encrypt_policy_witness :
    Encrypt (fun _ _ => []) [0] [1]
      [{ type := "X25519", wrap := fun _ => .error "boom" }] =
      .error (.fatal "failed to wrap key for recipient #0: boom") := by
  have h := (encrypt_policy (fun _ _ => []) [0] [1]).2.2 []
    { type := "X25519", wrap := fun _ => .error "boom" } [] "boom"
    (fun p hp => by cases hp) (by simp) rfl
  simpa using h

/-- C10: `SetWorkFactor` and `SetMaxWorkFactor` panic (modelled as
`none`) exactly for `logN < 1` or `logN > 30`; for `logN ∈ [1, 30]` they
store exactly `logN`, which a subsequent `Wrap` then uses — both in the
emitted stanza's second argument and as the only KDF cost `2^logN` —
and which a subsequent `Unwrap` enforces as its work-factor cap. -/
theorem set_work_factor_bounds (r : ScryptRecipient) (i : ScryptIdentity)
    (logN : Int) :
    ((logN < 1 ∨ logN > 30) →
       r.SetWorkFactor logN = none ∧ i.SetMaxWorkFactor logN = none) ∧
    (1 ≤ logN → logN ≤ 30 →
       r.SetWorkFactor logN = some { r with workFactor := logN } ∧
       i.SetMaxWorkFactor logN = some { i with maxWorkFactor := logN } ∧
       (∀ (scryptKey : ScryptKeyF) (aeadEncrypt : AeadEncF)
          (salt fileKey : List Nat) (st : Stanza),
          ScryptRecipient.Wrap scryptKey aeadEncrypt salt
              { r with workFactor := logN } fileKey = .ok st →
          st.args = [encodeToString salt, toString logN]) ∧
       (∀ (sk1 sk2 : ScryptKeyF) (aeadEncrypt : AeadEncF)
          (salt fileKey : List Nat),
          sk1 r.password (strBytes scryptLabel ++ salt) (2 ^ logN.toNat) =
            sk2 r.password (strBytes scryptLabel ++ salt) (2 ^ logN.toNat) →
          ScryptRecipient.Wrap sk1 aeadEncrypt salt
              { r with workFactor := logN } fileKey =
            ScryptRecipient.Wrap sk2 aeadEncrypt salt
              { r with workFactor := logN } fileKey) ∧
       (∀ (scryptKey : ScryptKeyF) (aeadDecrypt : AeadDecF) (st : Stanza)
          (a0 a1 : String) (salt : List Nat) (w : Int),
          st.type = "scrypt" → st.args = [a0, a1] →
          decodeString a0 = some salt → salt.length = 16 →
          atoi a1 = some w → w > logN →
          ScryptIdentity.Unwrap scryptKey aeadDecrypt
              { i with maxWorkFactor := logN } st =
            .error (.fatal ("scrypt work factor too large: " ++ toString w)))) := by
  constructor
  · intro h
    constructor
    · unfold ScryptRecipient.SetWorkFactor
      rw [if_pos (by omega)]
    · unfold ScryptIdentity.SetMaxWorkFactor
      rw [if_pos (by omega)]
  · intro h1 h30
    refine ⟨?_, ?_, ?_, ?_, ?_⟩
    · unfold ScryptRecipient.SetWorkFactor
      rw [if_neg (by omega)]
    · unfold ScryptIdentity.SetMaxWorkFactor
      rw [if_neg (by omega)]
    · intro scryptKey aeadEncrypt salt fileKey st hwrap
      cases hsk : scryptKey r.password (strBytes scryptLabel ++ salt)
          (2 ^ logN.toNat) with
      | none => simp [ScryptRecipient.Wrap, hsk] at hwrap
      | some k =>
          simp only [ScryptRecipient.Wrap, hsk] at hwrap
          cases hwrap
          rfl
    · intro sk1 sk2 aeadEncrypt salt fileKey h
      show (match sk1 r.password (strBytes scryptLabel ++ salt)
              (2 ^ logN.toNat) with
            | none => (.error (.fatal "failed to generate scrypt hash") :
                Except AgeErr Stanza)
            | some k => .ok { type := "scrypt",
                              args := [encodeToString salt, toString logN],
                              body := aeadEncrypt k fileKey }) =
           (match sk2 r.password (strBytes scryptLabel ++ salt)
              (2 ^ logN.toNat) with
            | none => .error (.fatal "failed to generate scrypt hash")
            | some k => .ok { type := "scrypt",
                              args := [encodeToString salt, toString logN],
                              body := aeadEncrypt k fileKey })
      rw [h]
    · intro scryptKey aeadDecrypt st a0 a1 salt w hty hargs hdec hlen hatoi hw
      simp [ScryptIdentity.Unwrap, hty, hargs, hdec, hlen, hatoi, hw]

theorem set_work_factor_bounds_witness :
    (ScryptRecipient.SetWorkFactor ⟨[], 18⟩ 0 = none ∧
     ScryptIdentity.SetMaxWorkFactor ⟨[], 22⟩ 0 = none) ∧
    (ScryptRecipient.SetWorkFactor ⟨[], 18⟩ 10 = some ⟨[], 10⟩ ∧
     ScryptIdentity.SetMaxWorkFactor ⟨[], 22⟩ 10 = some ⟨[], 10⟩) ∧
    ScryptIdentity.Unwrap (fun _ _ _ => none) (fun _ _ => none) ⟨[], 10⟩
        { type := "scrypt", args := ["AAAAAAAAAAAAAAAAAAAAAA", "23"],
          body := [] } =
      .error (.fatal "scrypt work factor too large: 23") := by
  refine ⟨(set_work_factor_bounds ⟨[], 18⟩ ⟨[], 22⟩ 0).1 (by omega), ?_, ?_⟩
  · have h := (set_work_factor_bounds ⟨[], 18⟩ ⟨[], 22⟩ 10).2
      (by omega) (by omega)
    exact ⟨h.1, h.2.1⟩
  · exact (set_work_factor_bounds ⟨[], 18⟩ ⟨[], 22⟩ 10).2 (by omega) (by omega)
      |>.2.2.2.2 (fun _ _ _ => none) (fun _ _ => none)
      { type := "scrypt", args := ["AAAAAAAAAAAAAAAAAAAAAA", "23"], body := [] }
      "AAAAAAAAAAAAAAAAAAAAAA" "23" (List.replicate 16 0) 23
      rfl rfl (by decide) (by decide) (by decide) (by decide)

/-- C3: `ScryptIdentity.Unwrap` returns the non-fatal incorrect-identity
signal exactly for a non-"scrypt" stanza type or an AEAD tag failure;
it fails fatally unless the stanza has exactly 2 args, the first
decoding to exactly 16 bytes and the second parsing as a decimal `logN`
with `0 < logN ≤ maxWorkFactor`; `logN > maxWorkFactor` is rejected with
`"scrypt work factor too large"` without invoking the scrypt KDF (the
result does not depend on the KDF or AEAD parameters), and `logN ≤ 0` is
rejected as invalid. -/
theorem scrypt_unwrap_spec (scryptKey : ScryptKeyF) (aeadDecrypt : AeadDecF)
    (i : ScryptIdentity) :
    (∀ st : Stanza, st.type ≠ "scrypt" →
       ScryptIdentity.Unwrap scryptKey aeadDecrypt i st =
         .error .incorrectIdentity) ∧
    (∀ st : Stanza, st.type = "scrypt" → st.args.length ≠ 2 →
       ScryptIdentity.Unwrap scryptKey aeadDecrypt i st =
         .error (.fatal "invalid scrypt recipient block")) ∧
    (∀ (st : Stanza) (a0 a1 : String), st.type = "scrypt" →
       st.args = [a0, a1] → decodeString a0 = none →
       ScryptIdentity.Unwrap scryptKey aeadDecrypt i st =
         .error (.fatal "failed to parse scrypt salt")) ∧
    (∀ (st : Stanza) (a0 a1 : String) (salt : List Nat),
       st.type = "scrypt" → st.args = [a0, a1] →
       decodeString a0 = some salt → salt.length ≠ 16 →
       ScryptIdentity.Unwrap scryptKey aeadDecrypt i st =
         .error (.fatal "invalid scrypt recipient block")) ∧
    (∀ (st : Stanza) (a0 a1 : String) (salt : List Nat),
       st.type = "scrypt" → st.args = [a0, a1] →
       decodeString a0 = some salt → salt.length = 16 → atoi a1 = none →
       ScryptIdentity.Unwrap scryptKey aeadDecrypt i st =
         .error (.fatal "failed to parse scrypt work factor")) ∧
    (∀ (st : Stanza) (a0 a1 : String) (salt : List Nat) (w : Int),
       st.type = "scrypt" → st.args = [a0, a1] →
       decodeString a0 = some salt → salt.length = 16 → atoi a1 = some w →
       w > i.maxWorkFactor →
       ScryptIdentity.Unwrap scryptKey aeadDecrypt i st =
         .error (.fatal ("scrypt work factor too large: " ++ toString w)) ∧
       ∀ (sk1 sk2 : ScryptKeyF) (ad1 ad2 : AeadDecF),
         ScryptIdentity.Unwrap sk1 ad1 i st =
           ScryptIdentity.Unwrap sk2 ad2 i st) ∧
    (∀ (st : Stanza) (a0 a1 : String) (salt : List Nat) (w : Int),
       st.type = "scrypt" → st.args = [a0, a1] →
       decodeString a0 = some salt → salt.length = 16 → atoi a1 = some w →
       w ≤ i.maxWorkFactor → w ≤ 0 →
       ScryptIdentity.Unwrap scryptKey aeadDecrypt i st =
         .error (.fatal ("invalid scrypt work factor: " ++ toString w))) ∧
    (∀ (st : Stanza) (a0 a1 : String) (salt k : List Nat) (w : Int),
       st.type = "scrypt" → st.args = [a0, a1] →
       decodeString a0 = some salt → salt.length = 16 → atoi a1 = some w →
       0 < w → w ≤ i.maxWorkFactor →
       scryptKey i.password (strBytes scryptLabel ++ salt) (2 ^ w.toNat) =
         some k →
       aeadDecrypt k st.body = none →
       ScryptIdentity.Unwrap scryptKey aeadDecrypt i st =
         .error .incorrectIdentity) ∧
    (∀ (st : Stanza) (a0 a1 : String) (salt k fk : List Nat) (w : Int),
       st.type = "scrypt" → st.args = [a0, a1] →
       decodeString a0 = some salt → salt.length = 16 → atoi a1 = some w →
       0 < w → w ≤ i.maxWorkFactor →
       scryptKey i.password (strBytes scryptLabel ++ salt) (2 ^ w.toNat) =
         some k →
       aeadDecrypt k st.body = some fk →
       ScryptIdentity.Unwrap scryptKey aeadDecrypt i st = .ok fk) := by
  refine ⟨?_, ?_, ?_, ?_, ?_, ?_, ?_, ?_, ?_⟩
  · intro st hty
    simp [ScryptIdentity.Unwrap, hty]
  · intro st hty hlen
    obtain ⟨ty, args, body⟩ := st
    simp only [] at hty hlen
    subst hty
    unfold ScryptIdentity.Unwrap
    rw [if_neg (by simp)]
    rcases args with _ | ⟨a0, _ | ⟨a1, _ | ⟨a2, rest⟩⟩⟩
    · rfl
    · rfl
    · simp at hlen
    · rfl
  · intro st a0 a1 hty hargs hdec
    obtain ⟨ty, args, body⟩ := st
    simp only [] at hty hargs
    subst hty; subst hargs
    simp [ScryptIdentity.Unwrap, hdec]
  · intro st a0 a1 salt hty hargs hdec hlen
    obtain ⟨ty, args, body⟩ := st
    simp only [] at hty hargs
    subst hty; subst hargs
    simp [ScryptIdentity.Unwrap, hdec, hlen]
  · intro st a0 a1 salt hty hargs hdec hlen hatoi
    obtain ⟨ty, args, body⟩ := st
    simp only [] at hty hargs
    subst hty; subst hargs
    simp [ScryptIdentity.Unwrap, hdec, hlen, hatoi]
  · intro st a0 a1 salt w hty hargs hdec hlen hatoi hw
    obtain ⟨ty, args, body⟩ := st
    simp only [] at hty hargs
    subst hty; subst hargs
    constructor
    · simp [ScryptIdentity.Unwrap, hdec, hlen, hatoi, hw]
    · intro sk1 sk2 ad1 ad2
      simp [ScryptIdentity.Unwrap, hdec, hlen, hatoi, hw]
  · intro st a0 a1 salt w hty hargs hdec hlen hatoi hmax hneg
    obtain ⟨ty, args, body⟩ := st
    simp only [] at hty hargs
    subst hty; subst hargs
    simp [ScryptIdentity.Unwrap, hdec, hlen, hatoi, hneg,
      show ¬(w > i.maxWorkFactor) by omega]
  · intro st a0 a1 salt k w hty hargs hdec hlen hatoi hpos hmax hsk had
    obtain ⟨ty, args, body⟩ := st
    simp only [] at hty hargs
    subst hty; subst hargs
    simp only [] at had
    simp [ScryptIdentity.Unwrap, hdec, hlen, hatoi, hsk, had,
      show ¬(w > i.maxWorkFactor) by omega, show ¬(w ≤ 0) by omega]
  · intro st a0 a1 salt k fk w hty hargs hdec hlen hatoi hpos hmax hsk had
    obtain ⟨ty, args, body⟩ := st
    simp only [] at hty hargs
    subst hty; subst hargs
    simp only [] at had
    simp [ScryptIdentity.Unwrap, hdec, hlen, hatoi, hsk, had,
      show ¬(w > i.maxWorkFactor) by omega, show ¬(w ≤ 0) by omega]

theorem scrypt_unwrap_spec_witness :
    ScryptIdentity.Unwrap (fun _ _ _ => some [1]) (fun _ _ => none) ⟨[7], 22⟩
        { type := "X25519", args := [], body := [] } =
      .error .incorrectIdentity ∧
    ScryptIdentity.Unwrap (fun _ _ _ => some [1]) (fun _ _ => none) ⟨[7], 22⟩
        { type := "scrypt", args := ["AAAA"], body := [] } =
      .error (.fatal "invalid scrypt recipient block") ∧
    ScryptIdentity.Unwrap (fun _ _ _ => some [1]) (fun _ _ => none) ⟨[7], 22⟩
        { type := "scrypt", args := ["AAAAAAAAAAAAAAAAAAAAAA", "1"],
          body := [2] } =
      .error .incorrectIdentity ∧
    ScryptIdentity.Unwrap (fun _ _ _ => some [1]) (fun _ _ => some [3]) ⟨[7], 22⟩
        { type := "scrypt", args := ["AAAAAAAAAAAAAAAAAAAAAA", "1"],
          body := [2] } =
      .ok [3] ∧
    ScryptIdentity.Unwrap (fun _ _ _ => some [1]) (fun _ _ => none) ⟨[7], 22⟩
        { type := "scrypt", args := ["AAAAAAAAAAAAAAAAAAAAAA", "0"],
          body := [2] } =
      .error (.fatal "invalid scrypt work factor: 0") := by
  refine ⟨?_, ?_, ?_, ?_, ?_⟩
  · exact (scrypt_unwrap_spec (fun _ _ _ => some [1]) (fun _ _ => none)
      ⟨[7], 22⟩).1 _ (by decide)
  · exact (scrypt_unwrap_spec (fun _ _ _ => some [1]) (fun _ _ => none)
      ⟨[7], 22⟩).2.1 _ rfl (by decide)
  · exact (scrypt_unwrap_spec (fun _ _ _ => some [1]) (fun _ _ => none)
      ⟨[7], 22⟩).2.2.2.2.2.2.2.1 _ "AAAAAAAAAAAAAAAAAAAAAA" "1"
      (List.replicate 16 0) [1] 1 rfl rfl (by decide) (by decide) (by decide)
      (by decide) (by decide) rfl rfl
  · exact (scrypt_unwrap_spec (fun _ _ _ => some [1]) (fun _ _ => some [3])
      ⟨[7], 22⟩).2.2.2.2.2.2.2.2 _ "AAAAAAAAAAAAAAAAAAAAAA" "1"
      (List.replicate 16 0) [1] [3] 1 rfl rfl (by decide) (by decide)
      (by decide) (by decide) (by decide) rfl rfl
  · exact (scrypt_unwrap_spec (fun _ _ _ => some [1]) (fun _ _ => none)
      ⟨[7], 22⟩).2.2.2.2.2.2.1 _ "AAAAAAAAAAAAAAAAAAAAAA" "0"
      (List.replicate 16 0) 0 rfl rfl (by decide) (by decide) (by decide)
      (by decide) (by decide)

/-- C4: `X25519Identity.Unwrap` returns the distinguished
incorrect-identity error exactly when the stanza type is not
`"X25519"` or the AEAD tag check on the body fails; an `"X25519"`
stanza whose args count is not 1, whose arg fails to decode, or whose
arg decodes to other than 32 bytes fails with a fatal
(non-incorrect-identity) error. -/
theorem x25519_unwrap_spec (x25519 : X25519F) (hkdf : HkdfF)
    (aeadDecrypt : AeadDecF) (i : X25519Identity) (st : Stanza) :
    (X25519Identity.Unwrap x25519 hkdf aeadDecrypt i st =
       .error .incorrectIdentity ↔
     st.type ≠ "X25519" ∨
     ∃ (a0 : String) (pk sharedSecret : List Nat),
       st.args = [a0] ∧ decodeString a0 = some pk ∧ pk.length = 32 ∧
       x25519 i.secretKey pk = some sharedSecret ∧
       aeadDecrypt (hkdf sharedSecret (pk ++ i.ourPublicKey)
         (strBytes x25519Label)) st.body = none) ∧
    (st.type = "X25519" → st.args.length ≠ 1 →
       X25519Identity.Unwrap x25519 hkdf aeadDecrypt i st =
         .error (.fatal "invalid X25519 recipient block")) ∧
    (∀ a0, st.type = "X25519" → st.args = [a0] → decodeString a0 = none →
       X25519Identity.Unwrap x25519 hkdf aeadDecrypt i st =
         .error (.fatal "failed to parse X25519 recipient")) ∧
    (∀ a0 pk, st.type = "X25519" → st.args = [a0] →
       decodeString a0 = some pk → pk.length ≠ 32 →
       X25519Identity.Unwrap x25519 hkdf aeadDecrypt i st =
         .error (.fatal "invalid X25519 recipient block")) := by
  obtain ⟨ty, args, body⟩ := st
  by_cases hty : ty = "X25519"
  · subst hty
    refine ⟨?_, ?_, ?_, ?_⟩
    · rcases args with _ | ⟨a0, _ | ⟨a1, rest⟩⟩
      · simp [X25519Identity.Unwrap]
      · cases hdec : decodeString a0 with
        | none => simp [X25519Identity.Unwrap, hdec]
        | some pk =>
            by_cases hlen : pk.length = 32
            · cases hx : x25519 i.secretKey pk with
              | none => simp [X25519Identity.Unwrap, hdec, hlen, hx]
              | some sh =>
                  cases had : aeadDecrypt (hkdf sh (pk ++ i.ourPublicKey)
                      (strBytes x25519Label)) body with
                  | none => simp [X25519Identity.Unwrap, hdec, hlen, hx, had]
                  | some fk => simp [X25519Identity.Unwrap, hdec, hlen, hx, had]
            · simp [X25519Identity.Unwrap, hdec, hlen]
      · simp [X25519Identity.Unwrap]
    · intro _ hlen
      unfold X25519Identity.Unwrap
      rw [if_neg (by simp)]
      rcases args with _ | ⟨a0, _ | ⟨a1, rest⟩⟩
      · rfl
      · simp at hlen
      · rfl
    · intro a0 _ hargs hdec
      simp only [] at hargs
      subst hargs
      simp [X25519Identity.Unwrap, hdec]
    · intro a0 pk _ hargs hdec hlen
      simp only [] at hargs
      subst hargs
      simp [X25519Identity.Unwrap, hdec, hlen]
  · refine ⟨?_, ?_, ?_, ?_⟩
    · simp [X25519Identity.Unwrap, hty]
    · intro h; exact absurd h hty
    · intro a0 h; exact absurd h hty
    · intro a0 pk h; exact absurd h hty

theorem x25519_unwrap_spec_witness :
    X25519Identity.Unwrap (fun _ _ => some [0]) (fun _ _ _ => [])
        (fun _ _ => none) ⟨[], []⟩
        { type := "scrypt", args := [], body := [] } =
      .error .incorrectIdentity ∧
    X25519Identity.Unwrap (fun _ _ => some [0]) (fun _ _ _ => [])
        (fun _ _ => none) ⟨[], []⟩
        { type := "X25519", args := [], body := [] } =
      .error (.fatal "invalid X25519 recipient block") ∧
    X25519Identity.Unwrap (fun _ _ => some [0]) (fun _ _ _ => [])
        (fun _ _ => none) ⟨[], []⟩
        { type := "X25519", args := ["AAAAAAAAAAAAAAAAAAAAAA"], body := [] } =
      .error (.fatal "invalid X25519 recipient block") := by
  refine ⟨?_, ?_, ?_⟩
  · exact (x25519_unwrap_spec (fun _ _ => some [0]) (fun _ _ _ => [])
      (fun _ _ => none) ⟨[], []⟩
      { type := "scrypt", args := [], body := [] }).1.mpr
      (Or.inl (by decide))
  · exact (x25519_unwrap_spec (fun _ _ => some [0]) (fun _ _ _ => [])
      (fun _ _ => none) ⟨[], []⟩
      { type := "X25519", args := [], body := [] }).2.1 rfl (by decide)
  · exact (x25519_unwrap_spec (fun _ _ => some [0]) (fun _ _ _ => [])
      (fun _ _ => none) ⟨[], []⟩
      { type := "X25519", args := ["AAAAAAAAAAAAAAAAAAAAAA"], body := [] }
      ).2.2.2 "AAAAAAAAAAAAAAAAAAAAAA" (List.replicate 16 0) rfl rfl
      (by decide) (by decide)

/-- C5: `X25519Recipient.Wrap` emits a stanza of type `"X25519"` whose
single arg is the unpadded-base64 ephemeral public key and whose body is
the AEAD encryption of the file key under
`wk = hkdf(shared, ephemeral_pub ++ recipient_pub, x25519Label)`;
`X25519Identity.Unwrap` derives the same `wk` from
`salt = stanza_pub ++ own_pub`, so when the recipient is the identity's
own (`i.Recipient`) and the two X25519 evaluations agree on the shared
secret (the Diffie-Hellman property), unwrap of a wrap returns the
original file key. -/
theorem x25519_wrap_unwrap_roundtrip (x25519 : X25519F) (hkdf : HkdfF)
    (aeadEncrypt : AeadEncF) (aeadDecrypt : AeadDecF)
    (ephemeral fileKey : List Nat) (i : X25519Identity)
    (ephPub sharedSecret : List Nat)
    (hpub : x25519 ephemeral basepoint = some ephPub)
    (hlen : ephPub.length = 32)
    (hbytes : ∀ b ∈ ephPub, b < 256)
    (hshared1 : x25519 ephemeral i.ourPublicKey = some sharedSecret)
    (hshared2 : x25519 i.secretKey ephPub = some sharedSecret)
    (haead : ∀ k m, aeadDecrypt k (aeadEncrypt k m) = some m) :
    X25519Recipient.Wrap x25519 hkdf aeadEncrypt ephemeral i.Recipient
        fileKey =
      .ok { type := "X25519",
            args := [encodeToString ephPub],
            body := aeadEncrypt (hkdf sharedSecret
              (ephPub ++ i.ourPublicKey) (strBytes x25519Label)) fileKey } ∧
    X25519Identity.Unwrap x25519 hkdf aeadDecrypt i
        { type := "X25519",
          args := [encodeToString ephPub],
          body := aeadEncrypt (hkdf sharedSecret
            (ephPub ++ i.ourPublicKey) (strBytes x25519Label)) fileKey } =
      .ok fileKey := by
  constructor
  · simp [X25519Recipient.Wrap, X25519Identity.Recipient, hpub, hshared1]
  · have hdec := decodeString_encodeToString ephPub hbytes
    simp [X25519Identity.Unwrap, hdec, hlen, hshared2, haead]

theorem x25519_wrap_unwrap_roundtrip_witness :
    X25519Identity.Unwrap (fun _ _ => some (List.replicate 32 0))
        (fun _ _ _ => []) (fun _ c => some c) ⟨[], List.replicate 32 0⟩
        { type := "X25519",
          args := [encodeToString (List.replicate 32 0)],
          body := List.replicate 16 7 } =
      .ok (List.replicate 16 7) :=
  (x25519_wrap_unwrap_roundtrip (fun _ _ => some (List.replicate 32 0))
    (fun _ _ _ => []) (fun _ m => m) (fun _ c => some c) []
    (List.replicate 16 7) ⟨[], List.replicate 32 0⟩ (List.replicate 32 0)
    (List.replicate 32 0) rfl (by decide) (by decide) rfl rfl
    (fun _ _ => rfl)).2
